import Mathlib

/-!
Verification of the go-asset-mapper repository: a shallow embedding of the
asset registry (`asset.go`), the manifest parsers (`manifest.go`) and the
tag renderers, with theorems settling the specification claims.

Conventions of the embedding:
* Go strings are Lean `String`s; Go byte slices are `List Nat` (each < 256,
  reduced `% 256` wherever a byte is consumed).
* A Go `map[string]T` is an association list `List (String × T)` with
  assignment `goMapSet` (replace-in-place or append) and lookup `goMapGet`.
  Go's unspecified iteration order is modelled by list order; no claim here
  depends on a particular order.
* The operating system is a parameter: opening a file is a function
  `String → Option (Except GoErr (List Nat))` (`none`: `os.Open` fails;
  `some (.error e)`: the file opens but reading it fails, as in `io.Copy`;
  `some (.ok bytes)`: the content). Directory structure seen by
  `filepath.Walk` is an `FSEntry` tree.
* Go runtime panics (nil dereference, slice bounds) are a distinguished
  result constructor, separate from returned `error` values.
-/
set_option autoImplicit false

set_option maxRecDepth 100000

namespace AssetMapperGo

/-- Go `error` values flowing through the mapper.  `skipDir` stands for the
distinguished `filepath.SkipDir` sentinel tested by `filepath.Walk`; no
callback of this package ever returns it. -/
inductive GoErr where
  | msg (s : String)
  | skipDir
  deriving DecidableEq, Repr

/-- `strings.TrimPrefix(s, "/")`: drop one leading `/` if present. -/
def goTrimPrefixSlash (s : String) : String :=
  match s.data with
  | '/' :: rest => ⟨rest⟩
  | _ => s

/-- `strings.TrimLeft(s, "/")`: drop every leading `/`. -/
def goTrimLeftSlash (s : String) : String :=
  ⟨s.data.dropWhile (fun c => c == '/')⟩

/-- `regexp \.css$` / `\.js$` reduce to a literal suffix test. -/
def goHasSuffixStr (s suffix : String) : Bool :=
  suffix.data.isSuffixOf s.data

def isCSS (path : String) : Bool := goHasSuffixStr path ".css"

def isJS (path : String) : Bool := goHasSuffixStr path ".js"

/-! ### SHA-256 (`crypto/sha256` + `encoding/hex`) -/
/-- Truncate to a 32-bit word. -/
def w32 (n : Nat) : Nat := n % 4294967296

def rotr32 (n x : Nat) : Nat := w32 ((x >>> n) ||| (x <<< (32 - n)))

def sumUpper0 (x : Nat) : Nat := rotr32 2 x ^^^ rotr32 13 x ^^^ rotr32 22 x

def sumUpper1 (x : Nat) : Nat := rotr32 6 x ^^^ rotr32 11 x ^^^ rotr32 25 x

def sumLower0 (x : Nat) : Nat := rotr32 7 x ^^^ rotr32 18 x ^^^ (x >>> 3)

def sumLower1 (x : Nat) : Nat := rotr32 17 x ^^^ rotr32 19 x ^^^ (x >>> 10)

def chFn (x y z : Nat) : Nat := (x &&& y) ^^^ ((4294967295 ^^^ x) &&& z)

def majFn (x y z : Nat) : Nat := (x &&& y) ^^^ (x &&& z) ^^^ (y &&& z)

/-- The 64 SHA-256 round constants (decimal). -/
def sha256K : List Nat :=
  [1116352408, 1899447441, 3049323471, 3921009573, 961987163,
   1508970993, 2453635748, 2870763221, 3624381080, 310598401,
   607225278, 1426881987, 1925078388, 2162078206, 2614888103,
   3248222580, 3835390401, 4022224774, 264347078, 604807628,
   770255983, 1249150122, 1555081692, 1996064986, 2554220882,
   2821834349, 2952996808, 3210313671, 3336571891, 3584528711,
   113926993, 338241895, 666307205, 773529912, 1294757372,
   1396182291, 1695183700, 1986661051, 2177026350, 2456956037,
   2730485921, 2820302411, 3259730800, 3345764771, 3516065817,
   3600352804, 4094571909, 275423344, 430227734, 506948616,
   659060556, 883997877, 958139571, 1322822218, 1537002063,
   1747873779, 1955562222, 2024104815, 2227730452, 2361852424,
   2428436474, 2756734187, 3204031479, 3329325298]

/-- The eight 32-bit state words of SHA-256 (also the working variables). -/
structure Hstate where
  a : Nat
  b : Nat
  c : Nat
  d : Nat
  e : Nat
  f : Nat
  g : Nat
  h : Nat
  deriving DecidableEq, Repr

/-- The initial SHA-256 state words (decimal). -/
def sha256Init : Hstate :=
  ⟨1779033703, 3144134277, 1013904242, 2773480762,
   1359893119, 2600822924, 528734635, 1541459225⟩

/-- Big-endian 8-byte encoding of the bit length, as in the SHA-256 padding. -/
def beBytes8 (n : Nat) : List Nat :=
  [(n >>> 56) % 256, (n >>> 48) % 256, (n >>> 40) % 256, (n >>> 32) % 256,
   (n >>> 24) % 256, (n >>> 16) % 256, (n >>> 8) % 256, n % 256]

/-- SHA-256 padding: `0x80`, zeros to 56 mod 64, then the 64-bit bit length. -/
def sha256Pad (msg : List Nat) : List Nat :=
  let len := msg.length
  let padZeros := (64 - ((len + 9) % 64)) % 64
  msg ++ [128] ++ List.replicate padZeros 0 ++ beBytes8 (8 * len)

def beWord (b0 b1 b2 b3 : Nat) : Nat :=
  (b0 % 256) * 16777216 + (b1 % 256) * 65536 + (b2 % 256) * 256 + (b3 % 256)

/-- Group bytes into big-endian 32-bit words. -/
def toWords : List Nat → List Nat
  | b0 :: b1 :: b2 :: b3 :: rest => beWord b0 b1 b2 b3 :: toWords rest
  | _ => []

/-- Extend the 16 block words to the 64-entry message schedule. -/
def scheduleW (w16 : List Nat) : List Nat :=
  (List.range 48).foldl
    (fun w _ =>
      w ++ [w32 (sumLower1 (w.getD (w.length - 2) 0) + w.getD (w.length - 7) 0 +
                 sumLower0 (w.getD (w.length - 15) 0) + w.getD (w.length - 16) 0)])
    w16

def roundStep (st : Hstate) (ki wi : Nat) : Hstate :=
  let t1 := w32 (st.h + sumUpper1 st.e + chFn st.e st.f st.g + ki + wi)
  let t2 := w32 (sumUpper0 st.a + majFn st.a st.b st.c)
  ⟨w32 (t1 + t2), st.a, st.b, st.c, w32 (st.d + t1), st.e, st.f, st.g⟩

def processBlock (h : Hstate) (block : List Nat) : Hstate :=
  let w := scheduleW (toWords block)
  let st := (List.range 64).foldl
    (fun st i => roundStep st (sha256K.getD i 0) (w.getD i 0)) h
  ⟨w32 (h.a + st.a), w32 (h.b + st.b), w32 (h.c + st.c), w32 (h.d + st.d),
   w32 (h.e + st.e), w32 (h.f + st.f), w32 (h.g + st.g), w32 (h.h + st.h)⟩

/-- Split into `n` consecutive 64-byte blocks (structural, so that the kernel
can evaluate digests). -/
def splitBlocksN : Nat → List Nat → List (List Nat)
  | 0, _ => []
  | n + 1, l => l.take 64 :: splitBlocksN n (l.drop 64)

/-- A padded message has length an exact multiple of 64. -/
def splitBlocks (l : List Nat) : List (List Nat) :=
  splitBlocksN (l.length / 64) l

def sha256State (msg : List Nat) : Hstate :=
  (splitBlocks (sha256Pad msg)).foldl processBlock sha256Init

def wordBytes (w : Nat) : List Nat :=
  [(w >>> 24) % 256, (w >>> 16) % 256, (w >>> 8) % 256, w % 256]

/-- `sha256.Sum` digest as 32 bytes. -/
def sha256Bytes (msg : List Nat) : List Nat :=
  let h := sha256State msg
  wordBytes h.a ++ wordBytes h.b ++ wordBytes h.c ++ wordBytes h.d ++
  wordBytes h.e ++ wordBytes h.f ++ wordBytes h.g ++ wordBytes h.h

def hexDigitChar (n : Nat) : Char :=
  if n < 10 then Char.ofNat (48 + n) else Char.ofNat (87 + n)

def byteHexChars (b : Nat) : List Char :=
  [hexDigitChar ((b >>> 4) % 16), hexDigitChar (b % 16)]

/-- `hex.EncodeToString(sha256(msg))`: the 64-character hex digest. -/
def sha256Hex (msg : List Nat) : String :=
  ⟨(sha256Bytes msg).foldr (fun b acc => byteHexChars b ++ acc) []⟩

/-! ### Go maps as association lists -/
/-- Go map assignment `m[k] = v`: replace the binding in place, or append. -/
def goMapSet {α : Type} (m : List (String × α)) (k : String) (v : α) :
    List (String × α) :=
  match m with
  | [] => [(k, v)]
  | (k0, v0) :: rest =>
    if k0 = k then (k, v) :: rest else (k0, v0) :: goMapSet rest k v

/-- Go map lookup `m[k]`. -/
def goMapGet {α : Type} (m : List (String × α)) (k : String) : Option α :=
  match m with
  | [] => none
  | (k0, v0) :: rest => if k0 = k then some v0 else goMapGet rest k

/-! ### The data model (`asset.go`) -/
structure Asset where
  PublicPath : String
  Hash : String
  Path : String
  deriving DecidableEq, Repr

/-- Result of `NewAsset`: the Go `(asset, error)` pair, with runtime panics
(out-of-range string slicing) kept apart from returned errors. -/
inductive NewAssetResult where
  | ok (a : Asset)
  | err (e : GoErr)
  | panicked
  deriving DecidableEq, Repr

/-- `NewAsset(path, publicPath string, hashLen int)`.

`fsys` models `os.Open` + reading: `none` means the open fails,
`some (.error e)` means reading (the `io.Copy` into the hasher) fails,
`some (.ok bytes)` is the content.  Mirrors the source line by line:
trim one leading `/`, open, hash only when `hashLen > 0`, then the
unconditional truncation `hash[0:hashLen]` — which panics whenever
`hashLen < 0` or `hashLen` exceeds the digest length. -/
def NewAsset (fsys : String → Option (Except GoErr (List Nat)))
    (path0 publicPath : String) (hashLen : Int) : NewAssetResult :=
  let path := goTrimPrefixSlash path0
  match fsys path with
  | none => .err (.msg "open error")
  | some readResult =>
    let hashed : Except GoErr String :=
      if 0 < hashLen then
        match readResult with
        | .error e => .error e
        | .ok content => .ok (sha256Hex content)
      else .ok ""
    match hashed with
    | .error e => .err e
    | .ok hash =>
      if hashLen < 0 ∨ (hash.length : Int) < hashLen then .panicked
      else
        let hash := hash.take hashLen.toNat
        let pubPath := publicPath ++ path
        let pubPath := if 0 < hashLen then pubPath ++ "?v=" ++ hash else pubPath
        .ok { Path := path, Hash := hash, PublicPath := pubPath }

structure AssetMapperEntry where
  CSS : List String
  JS : List String
  deriving DecidableEq, Repr

structure AssetMapper where
  PublicPath : String
  Assets : List (String × Asset)
  Entries : List (String × AssetMapperEntry)
  HashLen : Int
  deriving DecidableEq, Repr

def NewAssetMapper : AssetMapper :=
  { Assets := [], PublicPath := "/", HashLen := 10, Entries := [] }

/-- `CreateEntry`: get-or-create; returns the mapper (the map may gain the
fresh empty entry) and the entry value the Go code holds a pointer to. -/
def CreateEntry (a : AssetMapper) (name : String) :
    AssetMapper × AssetMapperEntry :=
  match goMapGet a.Entries name with
  | some e => (a, e)
  | none =>
    let e : AssetMapperEntry := { CSS := [], JS := [] }
    ({ a with Entries := goMapSet a.Entries name e }, e)

/-- `AssetMapperEntry.Add`: classify by suffix; paths that are neither CSS
nor JS fall through the `switch` and are dropped. -/
def AssetMapperEntry.Add (entry : AssetMapperEntry) (path : String) :
    AssetMapperEntry :=
  if isCSS path then { entry with CSS := entry.CSS ++ [path] }
  else if isJS path then { entry with JS := entry.JS ++ [path] }
  else entry

/-- `AddAsset`: first write wins unless `renew`; inserts under both the
source path and the public path. -/
def AddAsset (a : AssetMapper) (asset : Asset) (renew : Bool) : AssetMapper :=
  if renew = false ∧ (goMapGet a.Assets asset.Path).isSome then a
  else
    { a with Assets :=
        (goMapSet (goMapSet a.Assets asset.Path asset) asset.PublicPath asset) }

/-- `extractAssetPathFromMap`: trim every leading `/`, look up, and on a miss
return the (trimmed) search string. -/
def extractAssetPathFromMap (m : List (String × Asset)) (search0 : String) :
    String :=
  let search := goTrimLeftSlash search0
  match goMapGet m search with
  | some asset => asset.PublicPath
  | none => search

/-- `Get` delegates to `extractAssetPathFromMap` on the assets map. -/
def AssetMapper.Get (a : AssetMapper) (path : String) : String :=
  extractAssetPathFromMap a.Assets path

/-- `CSSEntry` (Go returns `nil` for an unknown entry; modelled as `[]`). -/
def CSSEntry (a : AssetMapper) (name : String) : List String :=
  match goMapGet a.Entries name with
  | some s => s.CSS
  | none => []

def JSEntry (a : AssetMapper) (name : String) : List String :=
  match goMapGet a.Entries name with
  | some s => s.JS
  | none => []

/-! ### Manifest parsers (`manifest.go`)

The parsers read and JSON-decode a file; the embedding starts after the
decoder, taking the list of decoded top-level documents (the `decoder.More()`
loop) with each document an association list in iteration order. -/
structure ViteRecord where
  File : String
  Src : String
  Name : String
  IsEntry : Bool
  CSS : List String
  Imports : List String
  IsDynamicEntry : Bool
  deriving DecidableEq, Repr

/-- Body of the `for k, v := range data` loop of `parseViteManifest`.
The Go `entry` is a pointer into `a.Entries`; its in-place `Add` mutations
are modelled by writing the final entry value back under `v.Name`. -/
def viteRecordLoad (a : AssetMapper) (k : String) (v : ViteRecord) :
    AssetMapper :=
  let asset : Asset :=
    { Path := k, PublicPath := a.PublicPath ++ v.File, Hash := "" }
  let a := { a with Assets := goMapSet a.Assets k asset }
  if v.IsEntry then
    let (a, entry) := CreateEntry a v.Name
    let entry := entry.Add asset.PublicPath
    let entry := v.CSS.foldl (fun e css => e.Add (a.PublicPath ++ css)) entry
    { a with Entries := goMapSet a.Entries v.Name entry }
  else a

def parseViteManifest (docs : List (List (String × ViteRecord)))
    (a : AssetMapper) : AssetMapper :=
  docs.foldl
    (fun a data => data.foldl (fun a kv => viteRecordLoad a kv.1 kv.2) a) a

/-- `parseWebpackManifest`: registers each original filename with
`PublicPath = a.PublicPath` (the prefix alone) and empty hash. -/
def parseWebpackManifest (docs : List (List (String × String)))
    (a : AssetMapper) : AssetMapper :=
  docs.foldl
    (fun a data =>
      data.foldl
        (fun a kv =>
          { a with Assets :=
              (goMapSet a.Assets kv.1
                { Path := kv.1, PublicPath := a.PublicPath, Hash := "" }) })
        a)
    a

/-! ### Tag rendering -/
/-- `html.EscapeString` escapes `&`, `'`, `<`, `>`, `"` per character. -/
def htmlEscapeChar (c : Char) : List Char :=
  if c = '&' then "&amp;".data
  else if c = Char.ofNat 39 then "&#39;".data
  else if c = '<' then "&lt;".data
  else if c = '>' then "&gt;".data
  else if c = Char.ofNat 34 then "&#34;".data
  else [c]

def htmlEscapeString (s : String) : String :=
  ⟨s.data.foldr (fun c acc => htmlEscapeChar c ++ acc) []⟩

/-- One iteration of the `attributeMapToString` loop: `async`/`defer` render
bare, everything else as `key="value"` with both parts escaped. -/
def renderAttribute (k v : String) : String :=
  if k = "async" ∨ k = "defer" then k
  else htmlEscapeString k ++ "=\x22" ++ htmlEscapeString v ++ "\x22"

def attributeMapToString (m : List (String × String)) : String :=
  String.intercalate " " (m.map (fun kv => renderAttribute kv.1 kv.2))

/-- The `for i := 0; i < len(attrs); i += 2` fill loop of `tagAttributes`. -/
def tagAttributesFill (m : List (String × String)) :
    List String → List (String × String)
  | k :: v :: rest => tagAttributesFill (goMapSet m k v) rest
  | _ => m

def tagAttributes (attrs : List String) :
    Except GoErr (List (String × String)) :=
  if attrs.length % 2 ≠ 0 then
    .error (.msg "attrs must be an even number of strings")
  else .ok (tagAttributesFill [] attrs)

def scriptTagRender (attrs : String) : String :=
  "<script " ++ attrs ++ "></script>"

def linkTagRender (attrs : String) : String :=
  "<link " ++ attrs ++ "/>"

/-- `ScriptTag`: the Go `(template.HTML, error)` pair.  The mapper is only
read (for `Get`), never returned, so the registry state is unchanged by
construction. -/
def ScriptTag (a : AssetMapper) (path : String) (attrs : List String) :
    String × Option GoErr :=
  let link := a.Get path
  match tagAttributes attrs with
  | .error e => ("", some e)
  | .ok attrMap =>
    let attrMap := goMapSet attrMap "src" link
    (scriptTagRender (attributeMapToString attrMap), none)

/-- `LinkTag`: injects the default `rel stylesheet` pair in front. -/
def LinkTag (a : AssetMapper) (path : String) (attrs0 : List String) :
    String × Option GoErr :=
  let link := a.Get path
  let attrs := ["rel", "stylesheet"] ++ attrs0
  match tagAttributes attrs with
  | .error e => ("", some e)
  | .ok attrMap =>
    let attrMap := goMapSet attrMap "href" link
    (linkTagRender (attributeMapToString attrMap), none)

/-! ### `ScanDir` and the `filepath.Walk` it relies on

`FSEntry` is the directory structure as `filepath.Walk` observes it:
`file` and `dir` are entries whose `lstat` succeeds, `broken` is an entry
whose `lstat` fails (Go then invokes the callback with a `nil` `FileInfo`).
A `dir` with `readable = false` is one whose `readDirNames` fails (Go then
reports no names plus the error).  Children are listed in walk order
(Go sorts names; the model keeps the given order).  File contents are not
in the tree: the callback re-opens paths through the same `fsys` map that
`NewAsset` uses. -/
mutual
inductive FSEntry where
  | file
  | broken
  | dir (readable : Bool) (children : FSChildren)

/-- Walk-ordered directory listing (Go sorts the names returned by
`readDirNames`; the model lists children already in that order). -/
inductive FSChildren where
  | nil
  | cons (name : String) (entry : FSEntry) (rest : FSChildren)
end

/-- `os.Lstat` on an entry: `some isDir`, or `none` on failure. -/
def goLstat : FSEntry → Option Bool
  | .broken => none
  | .file => some false
  | .dir _ _ => some true

/-- What a `filepath.WalkFunc` invocation can do: return an error value
(`none` = `nil`), or panic. -/
inductive CbRes where
  | ret (e : Option GoErr)
  | panicked
  deriving DecidableEq, Repr

/-- Overall walk result: `done e` is a normal return carrying the Go error
(`none` = `nil`), `panicked` an unrecovered runtime panic. -/
inductive WalkRes where
  | done (e : Option GoErr)
  | panicked
  deriving DecidableEq, Repr

/-- The closure `ScanDir` passes to `filepath.Walk`.  It ignores the
incoming error argument and immediately calls `info.IsDir()`, so an
invocation with a `nil` `FileInfo` (stat failure) dereferences nil and
panics.  It reads `a.PublicPath` / `a.HashLen` from the current mapper. -/
def scanDirWalkFn (fsys : String → Option (Except GoErr (List Nat)))
    (m : AssetMapper) (path : String) (info : Option Bool)
    (_incomingErr : Option GoErr) : AssetMapper × CbRes :=
  match info with
  | none => (m, .panicked)
  | some isDir =>
    if isDir then (m, .ret none)
    else
      match NewAsset fsys path m.PublicPath m.HashLen with
      | .ok asset => (AddAsset m asset false, .ret none)
      | .err e => (m, .ret (some e))
      | .panicked => (m, .panicked)

/-- `filepath.Join` for the already-clean path segments produced here. -/
def joinPath (p name : String) : String := p ++ "/" ++ name

mutual
/-- `path/filepath.walk(path, info, walkFn)` specialized to the `ScanDir`
callback, for entries whose `lstat` succeeded.  For a directory the callback
runs first (receiving the `readDirNames` error, which it ignores); per the
Go source, when `readDirNames` fails the walk returns the callback's own
result and the read error is otherwise dropped. -/
def walkEntry (fsys : String → Option (Except GoErr (List Nat)))
    (path : String) (e : FSEntry) (m : AssetMapper) :
    AssetMapper × WalkRes :=
  match e with
  | .broken => (m, .done none)  -- unreachable: callers lstat before walking
  | .file =>
    match scanDirWalkFn fsys m path (some false) none with
    | (m, .ret e1) => (m, .done e1)
    | (m, .panicked) => (m, .panicked)
  | .dir readable children =>
    -- `readDirNames` yields no names plus an error when unreadable; the walk
    -- then returns before the loop, so the loop always runs over `children`.
    let readErr : Option GoErr :=
      if readable then none else some (.msg "readdir error")
    match scanDirWalkFn fsys m path (some true) readErr with
    | (m, .panicked) => (m, .panicked)
    | (m, .ret err1) =>
      if readErr.isSome ∨ err1.isSome then (m, .done err1)
      else walkChildren fsys path children m

/-- The `for _, name := range names` loop of `walk`. -/
def walkChildren (fsys : String → Option (Except GoErr (List Nat)))
    (path : String) (cs : FSChildren) (m : AssetMapper) :
    AssetMapper × WalkRes :=
  match cs with
  | .nil => (m, .done none)
  | .cons name c rest =>
    let filename := joinPath path name
    match goLstat c with
    | none =>
      match scanDirWalkFn fsys m filename none (some (.msg "lstat error")) with
      | (m, .panicked) => (m, .panicked)
      | (m, .ret (some e)) =>
        if e = .skipDir then walkChildren fsys path rest m
        else (m, .done (some e))
      | (m, .ret none) => walkChildren fsys path rest m
    | some cIsDir =>
      match walkEntry fsys filename c m with
      | (m, .panicked) => (m, .panicked)
      | (m, .done (some e)) =>
        if ¬cIsDir ∨ e ≠ .skipDir then (m, .done (some e))
        else walkChildren fsys path rest m
      | (m, .done none) => walkChildren fsys path rest m
end

/-- `filepath.Walk(root, fn)`: `lstat` the root (invoking the callback with a
nil `FileInfo` on failure), then filter a top-level `SkipDir`. -/
def filepathWalk (fsys : String → Option (Except GoErr (List Nat)))
    (root : String) (rootEntry : FSEntry) (m : AssetMapper) :
    AssetMapper × WalkRes :=
  match goLstat rootEntry with
  | none =>
    match scanDirWalkFn fsys m root none (some (.msg "lstat error")) with
    | (m, .ret e) => (m, .done e)
    | (m, .panicked) => (m, .panicked)
  | some _ =>
    match walkEntry fsys root rootEntry m with
    | (m, .done (some .skipDir)) => (m, .done none)
    | (m, r) => (m, r)

/-- `ScanDir` walks the directory and returns the walk's error. -/
def ScanDir (fsys : String → Option (Except GoErr (List Nat)))
    (a : AssetMapper) (dirName : String) (rootEntry : FSEntry) :
    AssetMapper × WalkRes :=
  filepathWalk fsys dirName rootEntry a

/-! ### Claim C8 -/
mutual
/-- Scanner for "no raw ampersand": every `&` must begin one of the five
entities `html.EscapeString` emits (`&amp;`, `&lt;`, `&gt;`, `&#34;`,
`&#39;`). -/
def ampOk : List Char → Bool
  | [] => true
  | c :: rest => if c = '&' then ampEnt rest else ampOk rest

/-- After a raw `&`, one of the emitted entity tails must follow. -/
def ampEnt : List Char → Bool
  | 'a' :: 'm' :: 'p' :: ';' :: r => ampOk r
  | 'l' :: 't' :: ';' :: r => ampOk r
  | 'g' :: 't' :: ';' :: r => ampOk r
  | '#' :: '3' :: '4' :: ';' :: r => ampOk r
  | '#' :: '3' :: '9' :: ';' :: r => ampOk r
  | _ => false
end

/-- "Escapable characters never appear raw": no `<`, `>` or `"` at all, and
every `&` only as the start of an emitted entity. -/
def noRawEscapables (s : String) : Bool :=
  (s.data.all fun c => !(c == '<' || c == '>' || c == Char.ofNat 34)) &&
    ampOk s.data

/-- The filesystem of the C5/C10 concrete checks: one readable file. -/
def c10fs : String → Option (Except GoErr (List Nat)) :=
  fun p => if p = "f.txt" then some (.ok [1, 2, 3]) else none

/-- A file that opens but cannot be read (as for an `io.Copy` failure). -/
def c5errfs : String → Option (Except GoErr (List Nat)) :=
  fun p => if p = "big.bin" then some (.error (.msg "read error")) else none

def c2asset : Asset := { PublicPath := "/w.css", Hash := "h", Path := "w.css" }

def c2rec : ViteRecord :=
  { File := "assets/app.js", Src := "", Name := "app", IsEntry := false,
    CSS := [], Imports := [], IsDynamicEntry := false }

def c2mapper : AssetMapper :=
  parseViteManifest [[("src/app.js", c2rec)]] NewAssetMapper

/-! ### Claim C6: Dialect A entry population -/
def c6recJS : ViteRecord :=
  { File := "assets/app-XYZ.js", Src := "", Name := "app", IsEntry := true,
    CSS := ["assets/app-ABC.css"], Imports := [], IsDynamicEntry := false }

def c6mapperJS : AssetMapper :=
  parseViteManifest [[("src/app.js", c6recJS)]] NewAssetMapper

def c6recCSS : ViteRecord :=
  { File := "style.css", Src := "", Name := "app", IsEntry := true,
    CSS := [], Imports := [], IsDynamicEntry := false }

def c6mapperCSS : AssetMapper :=
  parseViteManifest [[("src/style.css", c6recCSS)]] NewAssetMapper

/-! ### The walk as a fold of attempted `AddAsset`s

`scanDirWalkFn` never lets the mapper influence control flow (`AddAsset`
cannot fail, and `NewAsset` only reads the mapper's `PublicPath`/`HashLen`,
which `AddAsset` never changes), so a walk equals folding `AddAsset` over a
state-independent list of attempted assets.  `walkAssetsEntry` /
`walkAssetsChildren` compute that list plus the walk result, mirroring
`walkEntry` / `walkChildren` with the callback's state transitions erased. -/
def foldAdd (m : AssetMapper) (l : List Asset) : AssetMapper :=
  l.foldl (fun m a => AddAsset m a false) m

mutual
def walkAssetsEntry (fsys : String → Option (Except GoErr (List Nat)))
    (pp : String) (hl : Int) (path : String) :
    FSEntry → List Asset × WalkRes
  | .broken => ([], .done none)
  | .file =>
    match NewAsset fsys path pp hl with
    | .ok a => ([a], .done none)
    | .err e => ([], .done (some e))
    | .panicked => ([], .panicked)
  | .dir readable children =>
    if readable then walkAssetsChildren fsys pp hl path children
    else ([], .done none)

def walkAssetsChildren (fsys : String → Option (Except GoErr (List Nat)))
    (pp : String) (hl : Int) (path : String) :
    FSChildren → List Asset × WalkRes
  | .nil => ([], .done none)
  | .cons name c rest =>
    match goLstat c with
    | none => ([], .panicked)
    | some cIsDir =>
      match walkAssetsEntry fsys pp hl (joinPath path name) c with
      | (l, .panicked) => (l, .panicked)
      | (l, .done (some e)) =>
        if ¬cIsDir ∨ e ≠ .skipDir then (l, .done (some e))
        else
          let r := walkAssetsChildren fsys pp hl path rest
          (l ++ r.1, r.2)
      | (l, .done none) =>
        let r := walkAssetsChildren fsys pp hl path rest
        (l ++ r.1, r.2)
end

/-- The attempted assets plus result of a whole `filepath.Walk` call. -/
def scanAttempts (fsys : String → Option (Except GoErr (List Nat)))
    (pp : String) (hl : Int) (root : String) (rootEntry : FSEntry) :
    List Asset × WalkRes :=
  match goLstat rootEntry with
  | none => ([], .panicked)
  | some _ =>
    match walkAssetsEntry fsys pp hl root rootEntry with
    | (l, .done (some .skipDir)) => (l, .done none)
    | r => r

def c9asset : Asset := { PublicPath := "/s.js", Hash := "", Path := "s.js" }

def c9m : AssetMapper := AddAsset NewAssetMapper c9asset false

def c9fs : String → Option (Except GoErr (List Nat)) := fun _ => none

def c9tree : FSEntry := FSEntry.dir true (FSChildren.cons "x.js" .file .nil)

/-! ### Claim C4: scan error behaviour (code bug) -/
def c4fsys : String → Option (Except GoErr (List Nat)) :=
  fun p => if p = "assets/a.css" then some (.ok [1]) else none

def c4m0 : AssetMapper :=
  { PublicPath := "/", Assets := [], Entries := [], HashLen := 0 }

def c4tree : FSEntry :=
  .dir true (.cons "a.css" .file (.cons "bad.css" .file .nil))

def c4asset : Asset :=
  { PublicPath := "/assets/a.css", Hash := "", Path := "assets/a.css" }

def c1wfs : String → Option (Except GoErr (List Nat)) :=
  fun p => if p = "a.css" then some (.ok []) else none

def c1wasset : Asset :=
  { PublicPath := "static/a.css", Hash := "", Path := "a.css" }

def c1fs : String → Option (Except GoErr (List Nat)) :=
  fun p => if p = "assets/a.css" then some (.ok [104, 105]) else none

def c1tree : FSEntry := .dir true (.cons "a.css" .file .nil)

def c1scan : AssetMapper := (ScanDir c1fs NewAssetMapper "assets" c1tree).1

/-! ### Basic lemmas about the Go-map and string helpers -/
theorem goMapGet_set_self {α : Type} (m : List (String × α)) (k : String)
    (v : α) : goMapGet (goMapSet m k v) k = some v := by
  induction m with
  | nil => simp [goMapSet, goMapGet]
  | cons kv rest ih =>
    obtain ⟨k0, v0⟩ := kv
    by_cases h : k0 = k <;> simp [goMapSet, goMapGet, h, ih]

theorem goMapGet_set_ne {α : Type} (m : List (String × α)) {k k' : String}
    (v : α) (h : k' ≠ k) :
    goMapGet (goMapSet m k v) k' = goMapGet m k' := by
  have h' : k ≠ k' := Ne.symm h
  induction m with
  | nil => simp [goMapSet, goMapGet, h']
  | cons kv rest ih =>
    obtain ⟨k0, v0⟩ := kv
    by_cases h0 : k0 = k
    · subst h0; simp [goMapSet, goMapGet, h']
    · by_cases h1 : k0 = k' <;> simp [goMapSet, goMapGet, h, h0, h1, ih]

theorem goMapGet_set_isSome {α : Type} (m : List (String × α))
    {k' : String} (k : String) (v : α)
    (h : (goMapGet m k').isSome) :
    (goMapGet (goMapSet m k v) k').isSome := by
  by_cases hk : k' = k
  · subst hk; simp [goMapGet_set_self]
  · rwa [goMapGet_set_ne m v hk]

theorem goTrimLeftSlash_eq_self {s : String}
    (h : s.data.head? ≠ some '/') : goTrimLeftSlash s = s := by
  obtain ⟨l⟩ := s
  cases l with
  | nil => rfl
  | cons c rest =>
    simp only [List.head?] at h
    have hc : c ≠ '/' := by intro hc; exact h (by simp [hc])
    have hb : (c == '/') = false := by simp [hc]
    simp [goTrimLeftSlash, List.dropWhile, hb]

/-! ### Claim C3 -/
/-- Claim C3, amended.  `Get` normalizes with `strings.TrimLeft`, stripping
every leading `/` (not just one), and on a miss returns the *trimmed* path,
not the verbatim input; the two coincide exactly when the input has no
leading separator, so `get("unregistered/path.doc")` is returned verbatim. -/
theorem C3_get_fallback (m : AssetMapper) (path : String)
    (hmiss : goMapGet m.Assets (goTrimLeftSlash path) = none) :
    AssetMapper.Get m path = goTrimLeftSlash path ∧
    (path.data.head? ≠ some '/' → AssetMapper.Get m path = path) := by
  have hget : AssetMapper.Get m path = goTrimLeftSlash path := by
    simp [AssetMapper.Get, extractAssetPathFromMap, hmiss]
  exact ⟨hget, fun h => by rw [hget, goTrimLeftSlash_eq_self h]⟩

/-- Witness for C3: the spec's own example, an unregistered path with no
leading separator, comes back verbatim. -/
theorem C3_get_fallback_witness :
    AssetMapper.Get NewAssetMapper "unregistered/path.doc" =
      "unregistered/path.doc" :=
  (C3_get_fallback NewAssetMapper "unregistered/path.doc" rfl).2 (by decide)

/-- Counterexample to C3 as stated: on a miss `Get` does not return the
input verbatim and strips more than one separator — the unregistered input
`"//sub/a.doc"` comes back as `"sub/a.doc"`. -/
theorem C3_counterexample :
    AssetMapper.Get NewAssetMapper "//sub/a.doc" = "sub/a.doc" ∧
    ("sub/a.doc" : String) ≠ "//sub/a.doc" := by decide

/-! ### Claim C7 -/
theorem tagAttributes_odd {attrs : List String} (h : attrs.length % 2 = 1) :
    tagAttributes attrs =
      .error (.msg "attrs must be an even number of strings") := by
  unfold tagAttributes
  rw [if_pos (show attrs.length % 2 ≠ 0 by omega)]

/-- Claim C7, confirmed: an odd attribute list makes both `ScriptTag` and
`LinkTag` return the error `attrs must be an even number of strings` with
empty markup.  Both functions only read the mapper (`Get`) and return no
mapper, so the registry state is unchanged by construction. -/
theorem C7_odd_attribute_list (m : AssetMapper) (path : String)
    (attrs : List String) (hodd : attrs.length % 2 = 1) :
    ScriptTag m path attrs =
      ("", some (GoErr.msg "attrs must be an even number of strings")) ∧
    LinkTag m path attrs =
      ("", some (GoErr.msg "attrs must be an even number of strings")) := by
  constructor
  · simp [ScriptTag, tagAttributes_odd hodd]
  · have h3 : tagAttributes ("rel" :: "stylesheet" :: attrs) =
        .error (.msg "attrs must be an even number of strings") :=
      tagAttributes_odd (by simp [List.length_cons]; omega)
    simp [LinkTag, h3]

/-- Witness for C7 at the spec's scenario `scriptTag("x.js", "type")`. -/
theorem C7_odd_attribute_list_witness :
    ScriptTag NewAssetMapper "x.js" ["type"] =
      ("", some (GoErr.msg "attrs must be an even number of strings")) ∧
    LinkTag NewAssetMapper "x.js" ["type"] =
      ("", some (GoErr.msg "attrs must be an even number of strings")) :=
  C7_odd_attribute_list NewAssetMapper "x.js" ["type"] (by decide)

theorem ampOk_escape_chunk (c : Char) (r : List Char) :
    ampOk (htmlEscapeChar c ++ r) = ampOk r := by
  by_cases h1 : c = '&'
  · subst h1; simp [htmlEscapeChar, ampOk, ampEnt]
  by_cases h2 : c = Char.ofNat 39
  · subst h2; simp [htmlEscapeChar, ampOk, ampEnt]
  by_cases h3 : c = '<'
  · subst h3; simp [htmlEscapeChar, ampOk, ampEnt]
  by_cases h4 : c = '>'
  · subst h4; simp [htmlEscapeChar, ampOk, ampEnt]
  by_cases h5 : c = Char.ofNat 34
  · subst h5; simp [htmlEscapeChar, ampOk, ampEnt]
  · simp [htmlEscapeChar, ampOk, h1, h2, h3, h4, h5]

theorem all_escape_chunk (c : Char) :
    ((htmlEscapeChar c).all
      fun x => !(x == '<' || x == '>' || x == Char.ofNat 34)) = true := by
  by_cases h1 : c = '&'
  · subst h1; decide
  by_cases h2 : c = Char.ofNat 39
  · subst h2; decide
  by_cases h3 : c = '<'
  · subst h3; decide
  by_cases h4 : c = '>'
  · subst h4; decide
  by_cases h5 : c = Char.ofNat 34
  · subst h5; decide
  · simp [htmlEscapeChar, h1, h2, h3, h4, h5]

theorem noRawEscapables_escape (s : String) :
    noRawEscapables (htmlEscapeString s) = true := by
  have key : ∀ l : List Char,
      ((l.foldr (fun c acc => htmlEscapeChar c ++ acc) []).all
        fun x => !(x == '<' || x == '>' || x == Char.ofNat 34)) = true ∧
      ampOk (l.foldr (fun c acc => htmlEscapeChar c ++ acc) []) = true := by
    intro l
    induction l with
    | nil => exact ⟨rfl, rfl⟩
    | cons c rest ih =>
      refine ⟨?_, ?_⟩
      · simp only [List.foldr_cons, List.all_append, ih.1,
          all_escape_chunk c, Bool.and_self]
      · rw [List.foldr_cons, ampOk_escape_chunk, ih.2]
  have h := key s.data
  simp only [noRawEscapables, htmlEscapeString]
  rw [h.1, h.2]
  rfl

/-- Claim C8, confirmed.  A key named exactly `async` or `defer` renders as
the bare name whatever its value; any other pair renders as
`key="value"` with `html.EscapeString` applied to both parts, and the
escaped parts contain no raw `<`, `>`, `"`, and `&` only as the start of an
emitted entity. -/
theorem C8_attribute_serialization (k v : String) :
    ((k = "async" ∨ k = "defer") → renderAttribute k v = k) ∧
    (¬(k = "async" ∨ k = "defer") →
      renderAttribute k v =
        htmlEscapeString k ++ "=\x22" ++ htmlEscapeString v ++ "\x22") ∧
    noRawEscapables (htmlEscapeString k) = true ∧
    noRawEscapables (htmlEscapeString v) = true :=
  ⟨fun h => by simp [renderAttribute, h],
   fun h => by simp [renderAttribute, h],
   noRawEscapables_escape k, noRawEscapables_escape v⟩

/-- Witness for C8: the spec scenario `defer` with empty value renders bare,
and a value holding every escapable character escapes cleanly. -/
theorem C8_attribute_serialization_witness :
    renderAttribute "defer" "" = "defer" ∧
    noRawEscapables (htmlEscapeString "a<b&c\x22d>e") = true :=
  ⟨(C8_attribute_serialization "defer" "").1 (Or.inr rfl),
   (C8_attribute_serialization "a<b&c\x22d>e" "").2.2.1⟩

/-! ### Claims C5 and C10: `NewAsset` hashing and truncation -/
theorem sha256Bytes_length (msg : List Nat) : (sha256Bytes msg).length = 32 := by
  simp [sha256Bytes, wordBytes]

theorem sha256Hex_length (msg : List Nat) : (sha256Hex msg).length = 64 := by
  have key : ∀ l : List Nat,
      (l.foldr (fun b acc => byteHexChars b ++ acc) []).length = 2 * l.length := by
    intro l
    induction l with
    | nil => rfl
    | cons b rest ih =>
      simp only [List.foldr_cons, List.length_append, ih, List.length_cons,
        show ∀ b : Nat, (byteHexChars b).length = 2 from fun _ => rfl]
      omega
  show (sha256Hex msg).data.length = 64
  simp only [sha256Hex]
  rw [key, sha256Bytes_length]

/-- Claim C5, amended.  For truncation length exactly `0`, `NewAsset` skips
hashing entirely (the file content is never read — any read result,
including a read failure, gives the same asset) and returns an asset with
empty hash and no `?v=` suffix.  For *negative* lengths hashing is also
skipped, but the unconditional truncation `hash[0:hashLen]` then panics, so
no asset (and no error) is ever returned. -/
theorem C5_hash_disable (fsys : String → Option (Except GoErr (List Nat)))
    (path publicPath : String) (readResult : Except GoErr (List Nat))
    (hopen : fsys (goTrimPrefixSlash path) = some readResult) :
    NewAsset fsys path publicPath 0 =
      .ok { Path := goTrimPrefixSlash path, Hash := "",
            PublicPath := publicPath ++ goTrimPrefixSlash path } ∧
    (∀ hashLen : Int, hashLen < 0 →
      NewAsset fsys path publicPath hashLen = .panicked) := by
  constructor
  · simp [NewAsset, hopen]
    rfl
  · intro hashLen hneg
    have h0 : ¬((0 : Int) < hashLen) := by omega
    simp [NewAsset, hopen, h0, hneg]

/-- Witness for C5 (amended): with hash length `0` even an *unreadable* file
yields an asset with empty hash — hashing really is skipped — while hash
length `-7` panics. -/
theorem C5_hash_disable_witness :
    NewAsset c5errfs "big.bin" "p/" 0 =
      .ok { Path := "big.bin", Hash := "", PublicPath := "p/big.bin" } ∧
    NewAsset c5errfs "big.bin" "p/" (-7) = .panicked := by
  have h := C5_hash_disable c5errfs "big.bin" "p/" (.error (.msg "read error"))
    rfl
  rw [show goTrimPrefixSlash "big.bin" = "big.bin" from rfl] at h
  exact ⟨h.1, h.2 (-7) (by norm_num)⟩

/-- Counterexample to C5 as stated: at truncation length `-1` (which is
`<= 0`) `NewAsset` on a readable file does not return an asset with empty
hash — it panics on the slice `hash[0:-1]`. -/
theorem C5_counterexample :
    NewAsset c10fs "f.txt" "/" (-1) = .panicked := by decide

/-- Claim C10, confirmed.  The truncation `hash[0:hashLen]` is applied
unconditionally, so for every readable file a configured hash length
greater than 64 (the hex length of a SHA-256 digest) panics with a slice
bound out of range instead of returning an asset or error; a negative
length panics as well, and every length in `[0, 64]` returns an asset:
the truncation step is total exactly on `[0, 64]`. -/
theorem C10_truncation_bounds
    (fsys : String → Option (Except GoErr (List Nat)))
    (path publicPath : String) (content : List Nat) (hashLen : Int)
    (hread : fsys (goTrimPrefixSlash path) = some (.ok content)) :
    (64 < hashLen → NewAsset fsys path publicPath hashLen = .panicked) ∧
    (hashLen < 0 → NewAsset fsys path publicPath hashLen = .panicked) ∧
    (0 ≤ hashLen → hashLen ≤ 64 →
      ∃ a, NewAsset fsys path publicPath hashLen = .ok a) := by
  have hlen : (((sha256Hex content).length : Nat) : Int) = 64 := by
    rw [sha256Hex_length]; rfl
  refine ⟨?_, ?_, ?_⟩
  · intro h
    have h0 : (0 : Int) < hashLen := by omega
    have hlt : (((sha256Hex content).length : Nat) : Int) < hashLen := by omega
    simp [NewAsset, hread, h0, hlt]
  · intro h
    have h0 : ¬((0 : Int) < hashLen) := by omega
    simp [NewAsset, hread, h0, h]
  · intro hge hle
    by_cases h0 : (0 : Int) < hashLen
    · have hcond : ¬(hashLen < 0 ∨ (((sha256Hex content).length : Int) < hashLen)) := by
        rw [hlen] at *; push_neg; omega
      simp [NewAsset, hread, h0, hcond]
    · have hz : hashLen = 0 := by omega
      subst hz
      simp [NewAsset, hread]

/-- Witness for C10: with a concrete 3-byte file, hash length 65 panics and
hash length 64 still returns an asset. -/
theorem C10_truncation_bounds_witness :
    NewAsset c10fs "f.txt" "/" 65 = .panicked ∧
    (∃ a, NewAsset c10fs "f.txt" "/" 64 = .ok a) :=
  ⟨(C10_truncation_bounds c10fs "f.txt" "/" [1, 2, 3] 65 rfl).1
      (by norm_num),
   (C10_truncation_bounds c10fs "f.txt" "/" [1, 2, 3] 64 rfl).2.2
      (by norm_num) (by norm_num)⟩

/-! ### Claim C2: the dual-key registry invariant -/
/-- Claim C2, amended.  `AddAsset` (the operation directory scans use) does
insert every added asset under both its source-path key and its public-path
key, and both raw map lookups return that same asset.  The manifest
parsers, however, bypass `AddAsset` and register records under the source
key only, so manifest-loaded assets are not found by their computed public
path (see the counterexample). -/
theorem addAsset_lookup_both (m : AssetMapper) (a : Asset) (renew : Bool)
    (h : renew = true ∨ goMapGet m.Assets a.Path = none) :
    goMapGet (AddAsset m a renew).Assets a.Path = some a ∧
    goMapGet (AddAsset m a renew).Assets a.PublicPath = some a := by
  have hcond : ¬(renew = false ∧ (goMapGet m.Assets a.Path).isSome) := by
    rcases h with h | h <;> simp [h]
  simp only [AddAsset, if_neg hcond]
  constructor
  · by_cases hp : a.PublicPath = a.Path
    · rw [hp]; exact goMapGet_set_self _ _ _
    · rw [goMapGet_set_ne _ _ (fun hh => hp hh.symm)]
      exact goMapGet_set_self _ _ _
  · exact goMapGet_set_self _ _ _

theorem C2_dual_key (m : AssetMapper) (a : Asset) (renew : Bool)
    (h : renew = true ∨ goMapGet m.Assets a.Path = none) :
    goMapGet (AddAsset m a renew).Assets a.Path = some a ∧
    goMapGet (AddAsset m a renew).Assets a.PublicPath = some a :=
  addAsset_lookup_both m a renew h

/-- Witness for C2 (amended): a concrete `AddAsset` is visible under both
keys. -/
theorem C2_dual_key_witness :
    goMapGet (AddAsset NewAssetMapper c2asset false).Assets "w.css" =
      some c2asset ∧
    goMapGet (AddAsset NewAssetMapper c2asset false).Assets "/w.css" =
      some c2asset := by
  have h := C2_dual_key NewAssetMapper c2asset false (Or.inr rfl)
  exact ⟨h.1, h.2⟩

/-- Counterexample to C2 as stated: after a Vite manifest load the asset is
held by the registry under its source path — with computed public path
`/assets/app.js` — but a lookup on that public path finds nothing. -/
theorem C2_counterexample :
    goMapGet c2mapper.Assets "src/app.js" =
      some { PublicPath := "/assets/app.js", Hash := "", Path := "src/app.js" } ∧
    goMapGet c2mapper.Assets "/assets/app.js" = none := by decide

theorem entryAdd_css (e : AssetMapperEntry) (p : String)
    (h : isCSS p = true) :
    e.Add p = { e with CSS := e.CSS ++ [p] } := by
  simp [AssetMapperEntry.Add, h]

theorem entryAdd_js (e : AssetMapperEntry) (p : String)
    (h1 : isCSS p = false) (h2 : isJS p = true) :
    e.Add p = { e with JS := e.JS ++ [p] } := by
  simp [AssetMapperEntry.Add, h1, h2]

theorem entryAdd_drop (e : AssetMapperEntry) (p : String)
    (h1 : isCSS p = false) (h2 : isJS p = false) :
    e.Add p = e := by
  simp [AssetMapperEntry.Add, h1, h2]

/-- Folding `Add` over the prefixed stylesheet outputs appends, in order,
exactly the `.css`-classified ones to the stylesheet list and exactly the
`.js`-classified ones to the script list; everything else is dropped. -/
theorem entryAdd_foldl_pre (pp : String) (cssL : List String)
    (e : AssetMapperEntry) :
    cssL.foldl (fun e css => e.Add (pp ++ css)) e =
      { CSS := e.CSS ++
          ((cssL.map (fun c => pp ++ c)).filter (fun p => isCSS p)),
        JS := e.JS ++
          ((cssL.map (fun c => pp ++ c)).filter
            (fun p => !isCSS p && isJS p)) } := by
  induction cssL generalizing e with
  | nil => simp
  | cons c l ih =>
    rw [List.foldl_cons, ih]
    cases h1 : isCSS (pp ++ c) with
    | true => rw [entryAdd_css _ _ h1]; simp [List.filter_cons, h1]
    | false =>
      cases h2 : isJS (pp ++ c) with
      | true =>
        rw [entryAdd_js _ _ h1 h2]; simp [List.filter_cons, h1, h2]
      | false =>
        rw [entryAdd_drop _ _ h1 h2]; simp [List.filter_cons, h1, h2]

/-- Loading an entry-flagged record stores, under the record's logical
name, the entry obtained by `Add`-ing the record's own public path and then
each prefixed stylesheet output to the existing (or fresh) entry. -/
theorem viteRecordLoad_entry (a : AssetMapper) (k : String) (v : ViteRecord)
    (hentry : v.IsEntry = true) :
    goMapGet (viteRecordLoad a k v).Entries v.Name =
      some (v.CSS.foldl (fun e css => e.Add (a.PublicPath ++ css))
        (((goMapGet a.Entries v.Name).getD { CSS := [], JS := [] }).Add
          (a.PublicPath ++ v.File))) := by
  unfold viteRecordLoad CreateEntry
  rw [hentry]
  cases hget : goMapGet a.Entries v.Name with
  | some e => simp [hget, goMapGet_set_self]
  | none => simp [hget, goMapGet_set_self]

/-- Claim C6, amended.  For *every* Vite-manifest record flagged as an
entry point, the parser routes the record's own public path
(prefix + output filename) and each prefixed declared stylesheet output
through `AssetMapperEntry.Add`, which re-applies suffix classification:
of the sequence [own public path, prefixed stylesheet outputs in declared
order], exactly the `.js`-classified elements are appended, in order, to
the named entry's script list and exactly the `.css`-classified ones to
its stylesheet list; any other suffix is dropped from both.  The spec's
scenario holds because its entry file ends in `.js` (see the witness). -/
theorem C6_entry_population (a : AssetMapper) (k : String) (v : ViteRecord)
    (hentry : v.IsEntry = true) :
    JSEntry (viteRecordLoad a k v) v.Name =
      ((goMapGet a.Entries v.Name).getD { CSS := [], JS := [] }).JS ++
        ((((a.PublicPath ++ v.File) ::
            v.CSS.map (fun css => a.PublicPath ++ css)).filter
          (fun p => !isCSS p && isJS p))) ∧
    CSSEntry (viteRecordLoad a k v) v.Name =
      ((goMapGet a.Entries v.Name).getD { CSS := [], JS := [] }).CSS ++
        ((((a.PublicPath ++ v.File) ::
            v.CSS.map (fun css => a.PublicPath ++ css)).filter
          (fun p => isCSS p))) := by
  have hload := viteRecordLoad_entry a k v hentry
  have hfold := entryAdd_foldl_pre a.PublicPath v.CSS
    (((goMapGet a.Entries v.Name).getD { CSS := [], JS := [] }).Add
      (a.PublicPath ++ v.File))
  constructor
  · simp only [JSEntry, hload, hfold]
    cases h1 : isCSS (a.PublicPath ++ v.File) with
    | true => rw [entryAdd_css _ _ h1]; simp [List.filter_cons, h1]
    | false =>
      cases h2 : isJS (a.PublicPath ++ v.File) with
      | true =>
        rw [entryAdd_js _ _ h1 h2]; simp [List.filter_cons, h1, h2]
      | false =>
        rw [entryAdd_drop _ _ h1 h2]; simp [List.filter_cons, h1, h2]
  · simp only [CSSEntry, hload, hfold]
    cases h1 : isCSS (a.PublicPath ++ v.File) with
    | true => rw [entryAdd_css _ _ h1]; simp [List.filter_cons, h1]
    | false =>
      cases h2 : isJS (a.PublicPath ++ v.File) with
      | true =>
        rw [entryAdd_js _ _ h1 h2]; simp [List.filter_cons, h1, h2]
      | false =>
        rw [entryAdd_drop _ _ h1 h2]; simp [List.filter_cons, h1, h2]

/-- Witness for C6 (amended): the spec's scenario.  Applying the theorem to
the entry `app` with file `assets/app-XYZ.js` and css
`["assets/app-ABC.css"]` yields `entryScripts("app") =
["/assets/app-XYZ.js"]` and `entryStylesheets("app") =
["/assets/app-ABC.css"]`. -/
theorem C6_entry_population_witness :
    JSEntry c6mapperJS "app" = ["/assets/app-XYZ.js"] ∧
    CSSEntry c6mapperJS "app" = ["/assets/app-ABC.css"] := by
  have h := C6_entry_population NewAssetMapper "src/app.js" c6recJS rfl
  exact ⟨h.1.trans (by decide), h.2.trans (by decide)⟩

/-- Counterexample to C6 as stated: an entry-flagged record whose output
file is `style.css` contributes nothing to the script list (suffix
classification is reapplied and routes it to the stylesheet list). -/
theorem C6_counterexample :
    JSEntry c6mapperCSS "app" = [] ∧
    CSSEntry c6mapperCSS "app" = ["/style.css"] := by decide

theorem AddAsset_PublicPath (m : AssetMapper) (a : Asset) (r : Bool) :
    (AddAsset m a r).PublicPath = m.PublicPath := by
  unfold AddAsset; split <;> rfl

theorem AddAsset_HashLen (m : AssetMapper) (a : Asset) (r : Bool) :
    (AddAsset m a r).HashLen = m.HashLen := by
  unfold AddAsset; split <;> rfl

theorem foldAdd_cons (m : AssetMapper) (a : Asset) (l : List Asset) :
    foldAdd m (a :: l) = foldAdd (AddAsset m a false) l := rfl

theorem foldAdd_PublicPath (l : List Asset) (m : AssetMapper) :
    (foldAdd m l).PublicPath = m.PublicPath := by
  induction l generalizing m with
  | nil => rfl
  | cons a l ih => rw [foldAdd_cons, ih, AddAsset_PublicPath]

theorem foldAdd_HashLen (l : List Asset) (m : AssetMapper) :
    (foldAdd m l).HashLen = m.HashLen := by
  induction l generalizing m with
  | nil => rfl
  | cons a l ih => rw [foldAdd_cons, ih, AddAsset_HashLen]

theorem foldAdd_append (m : AssetMapper) (l1 l2 : List Asset) :
    foldAdd m (l1 ++ l2) = foldAdd (foldAdd m l1) l2 := by
  simp [foldAdd, List.foldl_append]

mutual
theorem walkEntry_eq_fold (fsys : String → Option (Except GoErr (List Nat)))
    (path : String) (e : FSEntry) (m : AssetMapper) :
    walkEntry fsys path e m =
      (foldAdd m (walkAssetsEntry fsys m.PublicPath m.HashLen path e).1,
       (walkAssetsEntry fsys m.PublicPath m.HashLen path e).2) := by
  cases e with
  | broken => simp [walkEntry, walkAssetsEntry, foldAdd]
  | file =>
    simp only [walkEntry, walkAssetsEntry, scanDirWalkFn]
    cases hna : NewAsset fsys path m.PublicPath m.HashLen <;>
      simp [hna, foldAdd]
  | dir readable children =>
    cases readable with
    | false => simp [walkEntry, walkAssetsEntry, scanDirWalkFn, foldAdd]
    | true =>
      simp only [walkEntry, walkAssetsEntry, scanDirWalkFn]
      simpa using walkChildren_eq_fold fsys path children m

theorem walkChildren_eq_fold
    (fsys : String → Option (Except GoErr (List Nat)))
    (path : String) (cs : FSChildren) (m : AssetMapper) :
    walkChildren fsys path cs m =
      (foldAdd m (walkAssetsChildren fsys m.PublicPath m.HashLen path cs).1,
       (walkAssetsChildren fsys m.PublicPath m.HashLen path cs).2) := by
  cases cs with
  | nil => simp [walkChildren, walkAssetsChildren, foldAdd]
  | cons name c rest =>
    rcases hwe : walkAssetsEntry fsys m.PublicPath m.HashLen
      (joinPath path name) c with ⟨l, r⟩
    simp only [walkChildren, walkAssetsChildren]
    cases hls : goLstat c with
    | none => simp [scanDirWalkFn, foldAdd]
    | some cIsDir =>
      rw [walkEntry_eq_fold fsys (joinPath path name) c m, hwe]
      cases r with
      | panicked => simp
      | done oe =>
        cases oe with
        | none =>
          dsimp only []
          rw [walkChildren_eq_fold fsys path rest (foldAdd m l)]
          simp [foldAdd_PublicPath, foldAdd_HashLen, foldAdd_append]
        | some e =>
          dsimp only []
          cases cIsDir with
          | false => simp
          | true =>
            by_cases he : e = GoErr.skipDir
            · subst he
              rw [if_neg (by simp), if_neg (by simp)]
              rw [walkChildren_eq_fold fsys path rest (foldAdd m l)]
              simp [foldAdd_PublicPath, foldAdd_HashLen, foldAdd_append]
            · rw [if_pos (Or.inr he), if_pos (Or.inr he)]
end

theorem ScanDir_eq_fold (fsys : String → Option (Except GoErr (List Nat)))
    (a : AssetMapper) (root : String) (rootEntry : FSEntry) :
    ScanDir fsys a root rootEntry =
      (foldAdd a (scanAttempts fsys a.PublicPath a.HashLen root rootEntry).1,
       (scanAttempts fsys a.PublicPath a.HashLen root rootEntry).2) := by
  rcases hwe : walkAssetsEntry fsys a.PublicPath a.HashLen root rootEntry
    with ⟨l, r⟩
  simp only [ScanDir, filepathWalk, scanAttempts]
  cases hls : goLstat rootEntry with
  | none => simp [scanDirWalkFn, foldAdd]
  | some isDir =>
    rw [walkEntry_eq_fold fsys root rootEntry a, hwe]
    cases r with
    | panicked => simp
    | done oe =>
      cases oe with
      | none => simp
      | some e => cases e <;> simp

/-! ### Claim C9: idempotence under first-write-wins -/
theorem AddAsset_path_present (m : AssetMapper) (a : Asset) :
    (goMapGet (AddAsset m a false).Assets a.Path).isSome := by
  by_cases h : (goMapGet m.Assets a.Path).isSome
  · unfold AddAsset; rw [if_pos ⟨rfl, h⟩]; exact h
  · unfold AddAsset; rw [if_neg (fun hh => h hh.2)]
    dsimp only []
    by_cases hp : a.PublicPath = a.Path
    · rw [hp, goMapGet_set_self]; rfl
    · rw [goMapGet_set_ne _ _ (fun hh => hp hh.symm), goMapGet_set_self]; rfl

theorem AddAsset_mono (m : AssetMapper) (a : Asset) (r : Bool) (k : String)
    (h : (goMapGet m.Assets k).isSome) :
    (goMapGet (AddAsset m a r).Assets k).isSome := by
  unfold AddAsset; split
  · exact h
  · dsimp only []
    exact goMapGet_set_isSome _ _ _ (goMapGet_set_isSome _ _ _ h)

theorem AddAsset_noop (m : AssetMapper) (a : Asset)
    (h : (goMapGet m.Assets a.Path).isSome) :
    AddAsset m a false = m := by
  unfold AddAsset; rw [if_pos ⟨rfl, h⟩]

theorem foldAdd_mono (l : List Asset) (m : AssetMapper) (k : String)
    (h : (goMapGet m.Assets k).isSome) :
    (goMapGet (foldAdd m l).Assets k).isSome := by
  induction l generalizing m with
  | nil => exact h
  | cons a l ih => rw [foldAdd_cons]; exact ih _ (AddAsset_mono _ _ _ _ h)

theorem foldAdd_present (l : List Asset) (m : AssetMapper) :
    ∀ a ∈ l, (goMapGet (foldAdd m l).Assets a.Path).isSome := by
  induction l generalizing m with
  | nil => intro a ha; cases ha
  | cons b l ih =>
    intro a ha
    rw [foldAdd_cons]
    rcases List.mem_cons.mp ha with h | h
    · subst h; exact foldAdd_mono _ _ _ (AddAsset_path_present m a)
    · exact ih _ a h

theorem foldAdd_noop (l : List Asset) (m : AssetMapper)
    (h : ∀ a ∈ l, (goMapGet m.Assets a.Path).isSome) : foldAdd m l = m := by
  induction l with
  | nil => rfl
  | cons a l ih =>
    rw [foldAdd_cons, AddAsset_noop m a (h a (List.mem_cons_self a l))]
    exact ih (fun b hb => h b (List.mem_cons_of_mem a hb))

theorem foldAdd_idem (m : AssetMapper) (l : List Asset) :
    foldAdd (foldAdd m l) l = foldAdd m l :=
  foldAdd_noop l (foldAdd m l) (foldAdd_present l m)

/-- Claim C9, confirmed.  Scanning the same unchanged directory twice (the
walk callback always adds with `renew = false`) leaves the registry exactly
as after one scan, and `AddAsset` with `renew = false` on an existing
source-path key is a no-op. -/
theorem C9_scan_idempotent (fsys : String → Option (Except GoErr (List Nat)))
    (root : String) (tree : FSEntry) (m : AssetMapper) (a : Asset) :
    (ScanDir fsys (ScanDir fsys m root tree).1 root tree).1 =
      (ScanDir fsys m root tree).1 ∧
    ((goMapGet m.Assets a.Path).isSome → AddAsset m a false = m) := by
  constructor
  · have h1 : (ScanDir fsys m root tree).1 =
        foldAdd m (scanAttempts fsys m.PublicPath m.HashLen root tree).1 := by
      rw [ScanDir_eq_fold]
    rw [ScanDir_eq_fold fsys (ScanDir fsys m root tree).1 root tree]
    dsimp only []
    rw [h1, foldAdd_PublicPath, foldAdd_HashLen, foldAdd_idem]
  · exact AddAsset_noop m a

/-- Witness for C9 at a concrete mapper, directory and asset. -/
theorem C9_scan_idempotent_witness :
    (ScanDir c9fs (ScanDir c9fs c9m "d" c9tree).1 "d" c9tree).1 =
      (ScanDir c9fs c9m "d" c9tree).1 ∧
    AddAsset c9m c9asset false = c9m :=
  ⟨(C9_scan_idempotent c9fs "d" c9tree c9m c9asset).1,
   (C9_scan_idempotent c9fs "d" c9tree c9m c9asset).2 (by decide)⟩

/-- Claim C4 (code bug).  The walk callback ignores its incoming error and
immediately calls `info.IsDir()`, so a stat failure (here: the root cannot
be `lstat`ed, as for `ScanDir` on a missing directory) dereferences a nil
`FileInfo` and panics instead of returning the error (first conjunct); a
file that cannot be opened does surface its error, aborting the walk while
retaining the assets already added (second conjunct); and a directory
whose listing cannot be read has its error silently swallowed — `ScanDir`
returns nil (third conjunct). -/
theorem C4_scan_error_behavior :
    ScanDir c4fsys c4m0 "missing" FSEntry.broken = (c4m0, .panicked) ∧
    ScanDir c4fsys c4m0 "assets" c4tree =
      ({ c4m0 with
          Assets := [("assets/a.css", c4asset), ("/assets/a.css", c4asset)] },
        .done (some (.msg "open error"))) ∧
    ScanDir c4fsys c4m0 "assets" (FSEntry.dir false FSChildren.nil) =
      (c4m0, .done none) := by
  decide

/-! ### Claim C1: round-trip for scanned assets -/
/-- Claim C1, amended.  For an asset built by `NewAsset` and added by
`AddAsset` (as the scan does), `get(sourcePath) = asset.publicPath` always
holds (scan source paths carry no leading separator), but
`get(publicPath) = asset.publicPath` holds only when the public path does
not begin with a separator: `Get` trims every leading `/` from its query
while `AddAsset` stores the public-path key untrimmed, so with the default
`/` prefix the public-path lookup misses (see the counterexample). -/
theorem C1_roundtrip (fsys : String → Option (Except GoErr (List Nat)))
    (path pub : String) (hl : Int) (m : AssetMapper) (a : Asset)
    (_hnew : NewAsset fsys path pub hl = .ok a)
    (hmiss : goMapGet m.Assets a.Path = none)
    (hhead : a.Path.data.head? ≠ some '/') :
    AssetMapper.Get (AddAsset m a false) a.Path = a.PublicPath ∧
    (a.PublicPath.data.head? ≠ some '/' →
      AssetMapper.Get (AddAsset m a false) a.PublicPath = a.PublicPath) := by
  have hboth := addAsset_lookup_both m a false (Or.inr hmiss)
  constructor
  · simp only [AssetMapper.Get, extractAssetPathFromMap,
      goTrimLeftSlash_eq_self hhead, hboth.1]
  · intro hp
    simp only [AssetMapper.Get, extractAssetPathFromMap,
      goTrimLeftSlash_eq_self hp, hboth.2]

/-- Witness for C1 (amended): with a slash-free public prefix both lookups
round-trip. -/
theorem C1_roundtrip_witness :
    AssetMapper.Get (AddAsset NewAssetMapper c1wasset false) "a.css" =
      "static/a.css" ∧
    AssetMapper.Get (AddAsset NewAssetMapper c1wasset false) "static/a.css" =
      "static/a.css" := by
  have h := C1_roundtrip c1wfs "a.css" "static/" 0 NewAssetMapper c1wasset
    (by decide) rfl (by decide)
  exact ⟨h.1, h.2 (by decide)⟩

/-- Counterexample to C1 as stated: scanning a directory holding one file
`a.css` (content `"hi"`) with the default configuration (`/` prefix, hash
length 10) yields an asset with public path `/assets/a.css?v=8f43434664`;
`get(sourcePath)` returns that public path, but `get(publicPath)` misses
and returns the public path stripped of its leading slash — not the
asset's public path. -/
theorem C1_counterexample :
    goMapGet c1scan.Assets "assets/a.css" =
      some { PublicPath := "/assets/a.css?v=8f43434664",
             Hash := "8f43434664", Path := "assets/a.css" } ∧
    AssetMapper.Get c1scan "assets/a.css" = "/assets/a.css?v=8f43434664" ∧
    AssetMapper.Get c1scan "/assets/a.css?v=8f43434664" =
      "assets/a.css?v=8f43434664" ∧
    ("assets/a.css?v=8f43434664" : String) ≠ "/assets/a.css?v=8f43434664" := by
  decide

/-- Sanity check of the SHA-256 embedding against the standard `"abc"` test
vector. -/
theorem sha256Hex_abc :
    sha256Hex [97, 98, 99] =
      "ba7816bf8f01cfea414140de5dae2223b00361a396177a9cb410ff61f20015ad" := by
  decide

end AssetMapperGo
